import Mathlib

/-!
Verification of the Hierarchical Activity Enrichment Engine
(`src/fetch_active_brands.py`, class `EnhancedMetaActivityTrackerWithAirtable`).

Strings are modelled as `List Char` (ASCII fragment of Python `str`); Python
`dict`s with string keys as insertion-ordered association lists; network calls
through an explicit `FetchOracle` (one deterministic response per object id
within a run, the retry loop of `_make_api_request` being folded into the
oracle's answer); the per-tier request counters `debug_stats['api_calls']` and
the skip list `debug_stats['skipped_objects']` as an explicit `ApiState`
threaded through the fetch helpers.  Logging, `time.sleep` and the purely
cosmetic debug counters (`object_types_found`, `hierarchy_built`,
`hierarchy_errors`) are omitted: they never influence a returned value.
-/

/-- Python `str.lower()` (ASCII fragment). -/
def pyLower (s : List Char) : List Char := s.map Char.toLower

/-- Python `str.strip()` with no argument: drop leading and trailing whitespace. -/
def pyStrip (s : List Char) : List Char :=
  ((s.dropWhile Char.isWhitespace).reverse.dropWhile Char.isWhitespace).reverse

/-- `startsWith s pat` is Python `s.startswith(pat)`. -/
def startsWith : List Char → List Char → Bool
  | _, [] => true
  | [], _ :: _ => false
  | c :: cs, d :: ds => c = d && startsWith cs ds

/-- `isSubstring pat s` is Python `pat in s` (substring containment). -/
def isSubstring (pat : List Char) : List Char → Bool
  | [] => pat.isEmpty
  | c :: rest => startsWith (c :: rest) pat || isSubstring pat rest

/-- Fuel-driven core of `replaceAll`; each step consumes at least one
character of `s`, so fuel `s.length` suffices. -/
def replaceAllAux (pat : List Char) : Nat → List Char → List Char
  | _, [] => []
  | 0, s => s
  | fuel + 1, c :: rest =>
    if !pat.isEmpty && startsWith (c :: rest) pat then
      replaceAllAux pat fuel (List.drop pat.length (c :: rest))
    else
      c :: replaceAllAux pat fuel rest

/-- Python `s.replace(pat, '')`: delete every occurrence of `pat`,
scanning left to right without overlap. -/
def replaceAll (pat s : List Char) : List Char :=
  replaceAllAux pat s.length s

/-- Fuel-driven core of `pyWords`. -/
def pyWordsAux : Nat → List Char → List (List Char)
  | 0, _ => []
  | fuel + 1, s =>
    match s.dropWhile Char.isWhitespace with
    | [] => []
    | c :: rest =>
      ((c :: rest).takeWhile (fun ch => !ch.isWhitespace)) ::
        pyWordsAux fuel ((c :: rest).dropWhile (fun ch => !ch.isWhitespace))

/-- Python `s.split()` with no argument: whitespace-separated words, no empties. -/
def pyWords (s : List Char) : List (List Char) := pyWordsAux (s.length + 1) s

/-- Decimal rendering of a natural number, as Python `str(n)` / f-string interpolation. -/
def natToStr (n : Nat) : List Char := Nat.toDigits 10 n

/-- Value of a list of decimal digit characters (most significant first). -/
def natOfDigits (s : List Char) : Nat :=
  s.foldl (fun acc c => acc * 10 + (c.toNat - '0'.toNat)) 0

/-- `_is_valid_meta_id` (src lines 96-109): truthiness check on the raw id,
then `strip()`, then the 10..25 length window, then `isdigit()`. -/
def isValidMetaId (objectId : List Char) : Bool :=
  if objectId.isEmpty then false
  else
    let s := pyStrip objectId
    if s.length < 10 || 25 < s.length then false
    else if !s.all Char.isDigit then false
    else true

/-- The `remove_terms` list of `_normalize_brand_name` (src lines 198-203), in
source order. -/
def removeTerms : List (List Char) :=
  ["pvt ltd".data, "private limited".data, "pvt. ltd.".data, "private ltd".data,
   "llp".data, "opc".data, "limited".data, "ltd".data, "inc".data, "corp".data,
   "- current".data, "- new".data, "- old".data, "domestic".data, "export".data,
   "the ".data, "a ".data, "an ".data]

/-- `_normalize_brand_name` (src lines 191-211): lowercase and strip, delete
each removable term in order, collapse whitespace, keep only alphanumeric
characters and whitespace, strip again.  A falsy (empty) input yields `''`. -/
def normalizeBrandName (name : List Char) : List Char :=
  if name.isEmpty then []
  else
    let n := pyStrip (pyLower name)
    let n := removeTerms.foldl (fun acc t => replaceAll t acc) n
    let n := List.intercalate " ".data (pyWords n)
    let n := n.filter (fun c => c.isAlphanum || c.isWhitespace)
    pyStrip n

/-- `EXCLUDED_EVENT_TYPES` (src lines 22-34). -/
def EXCLUDED_EVENT_TYPES : List (List Char) :=
  ["ad_account_update_spend_limit".data, "ad_account_reset_spend_limit".data,
   "ad_account_billing_charge".data, "ad_account_billing_charge_failed".data,
   "ad_account_billing_decline".data, "ad_review_approved".data,
   "ad_review_declined".data, "automatic_placement_optimization".data,
   "campaign_budget_optimization".data, "auto_bid_adjustment".data,
   "delivery_insights_notification".data]

/-- `INCLUDED_ACTIONS` (src lines 37-40).  The source iterates over a Python
set; only `any`-style existence is consumed, so iteration order is irrelevant. -/
def INCLUDED_ACTIONS : List (List Char) :=
  ["create".data, "update".data, "delete".data, "pause".data, "resume".data,
   "archive".data, "edit".data, "change".data, "modify".data, "activate".data,
   "deactivate".data]

/-- The automated-actor list of `_is_human_activity` (src line 186). -/
def AUTOMATED_ACTOR_NAMES : List (List Char) :=
  ["meta".data, "facebook".data, "system".data, "automated".data]

/-- One activity record as consumed by the engine; absent dict keys are the
empty string, matching the `.get(..., '')` accesses in the source. -/
structure Activity where
  eventType : List Char := []
  translatedEventType : List Char := []
  actorName : List Char := []
  objectId : List Char := []
  objectName : List Char := []
  objectType : List Char := []

/-- `_is_human_activity` (src lines 173-189): reject excluded event types;
accept if an included action keyword occurs in the lowered event type or
translated event type; else accept iff the actor name is non-empty and not a
known automated actor (case-insensitive); else reject. -/
def isHumanActivity (a : Activity) : Bool :=
  let eventType := pyLower a.eventType
  let translatedEvent := pyLower a.translatedEventType
  if eventType ∈ EXCLUDED_EVENT_TYPES then false
  else if INCLUDED_ACTIONS.any (fun action =>
      isSubstring action eventType || isSubstring action translatedEvent) then true
  else if a.actorName ≠ [] ∧ pyLower a.actorName ∉ AUTOMATED_ACTOR_NAMES then true
  else false

/-- Python `int(q)`: truncation toward zero. -/
def pyInt (q : ℚ) : ℤ := if 0 ≤ q then ⌊q⌋ else ⌈q⌉

/-- `hours_since_last = (now - last_entry_time).total_seconds() / 3600`
(src line 1138), with both instants given in whole seconds. -/
def hoursSinceLast (nowSec lastSec : ℕ) : ℚ := ((nowSec : ℚ) - (lastSec : ℚ)) / 3600

/-- `adjusted_hours = int(hours_since_last) + 2` (src line 1139): the smart
fetch window in append mode when a prior timestamp exists. -/
def adjustedFetchHours (nowSec lastSec : ℕ) : ℤ :=
  pyInt (hoursSinceLast nowSec lastSec) + 2

/-- The mutable per-run API bookkeeping of the tracker:
`debug_stats['api_calls']` (one counter per tier, incremented once per issued
detail request) and `debug_stats['skipped_objects']`. -/
structure ApiState where
  campaignCalls : Nat := 0
  adsetCalls : Nat := 0
  adCalls : Nat := 0
  skippedObjects : List (List Char) := []

/-- The decoded JSON body of a campaign detail response; each field is the
corresponding key of the Graph response, `none` when absent (the source reads
every field with `.get`). -/
structure CampaignData where
  name : Option (List Char) := none
  status : Option (List Char) := none
  effectiveStatus : Option (List Char) := none
  objective : Option (List Char) := none
  bidStrategy : Option (List Char) := none
  dailyBudget : Option (List Char) := none
  lifetimeBudget : Option (List Char) := none

/-- The `targeting` sub-object of an adset detail response.  Only the length
of the `cities` / `regions` arrays is consumed by the source, so they are
modelled by their counts; `none` for a numeric field means the key is absent. -/
structure Targeting where
  ageMin : Option Nat := none
  ageMax : Option Nat := none
  genders : List Nat := []
  countries : List (List Char) := []
  numCities : Nat := 0
  numRegions : Nat := 0

/-- The decoded JSON body of an adset detail response.  `targeting = none`
models both an absent and an empty (falsy) `targeting` dict. -/
structure AdsetData where
  name : Option (List Char) := none
  status : Option (List Char) := none
  effectiveStatus : Option (List Char) := none
  optimizationGoal : Option (List Char) := none
  billingEvent : Option (List Char) := none
  campaignId : Option (List Char) := none
  targeting : Option Targeting := none

/-- The decoded JSON body of an ad detail response. -/
structure AdData where
  name : Option (List Char) := none
  status : Option (List Char) := none
  effectiveStatus : Option (List Char) := none
  adsetId : Option (List Char) := none
  previewLink : Option (List Char) := none

/-- The network, as seen by one run: a deterministic response per object id.
`none` covers every non-success outcome of `_make_api_request` (4xx, exhausted
5xx retries, timeout, transport failure), all of which return `None`. -/
structure FetchOracle where
  campaign : List Char → Option CampaignData
  adset : List Char → Option AdsetData
  ad : List Char → Option AdData

/-- The oracle on which every detail fetch yields no data. -/
def noneOracle : FetchOracle :=
  { campaign := fun _ => none, adset := fun _ => none, ad := fun _ => none }

/-- `get_campaign_details` (src lines 335-355): an invalid id is recorded as
skipped and fetched never; a valid id always issues one API request (the
counter increments unconditionally, before the request). -/
def getCampaignDetails (o : FetchOracle) (st : ApiState) (campaignId : List Char) :
    Option CampaignData × ApiState :=
  if !isValidMetaId campaignId then
    (none, { st with skippedObjects := st.skippedObjects ++ ["campaign:".data ++ campaignId] })
  else
    (o.campaign campaignId, { st with campaignCalls := st.campaignCalls + 1 })

/-- `get_adset_details` (src lines 357-377). -/
def getAdsetDetails (o : FetchOracle) (st : ApiState) (adsetId : List Char) :
    Option AdsetData × ApiState :=
  if !isValidMetaId adsetId then
    (none, { st with skippedObjects := st.skippedObjects ++ ["adset:".data ++ adsetId] })
  else
    (o.adset adsetId, { st with adsetCalls := st.adsetCalls + 1 })

/-- `get_ad_details` (src lines 379-399). -/
def getAdDetails (o : FetchOracle) (st : ApiState) (adId : List Char) :
    Option AdData × ApiState :=
  if !isValidMetaId adId then
    (none, { st with skippedObjects := st.skippedObjects ++ ["ad:".data ++ adId] })
  else
    (o.ad adId, { st with adCalls := st.adCalls + 1 })

/-- Ceiling division, for stating the claimed `ceil(N/50)` call count. -/
def ceilDiv (a b : Nat) : Nat := (a + b - 1) / b

/-- The enrichment work the source actually performs for a list of object
ids: one `get_campaign_details` request per id (issued from the per-event
loop of `_build_complete_hierarchy`); no chunking or multiplexed batch
endpoint exists in the source. -/
def fetchCampaignDetailsList (o : FetchOracle) (st : ApiState)
    (ids : List (List Char)) : ApiState :=
  ids.foldl (fun s i => (getCampaignDetails o s i).2) st

/-- The sentinel default `'N/A'`. -/
def NA : List Char := "N/A".data

/-- An insertion-ordered string-keyed dict, as Python builds `hierarchy`. -/
abbrev Hierarchy := List (List Char × List Char)

/-- Python `d[k] = v` on a string-keyed dict: overwrite in place if the key
exists (keeping its position), else append. -/
def dictSet (d : Hierarchy) (k v : List Char) : Hierarchy :=
  match d with
  | [] => [(k, v)]
  | (k', v') :: rest => if k' = k then (k', v) :: rest else (k', v') :: dictSet rest k v

/-- Python `d.get(k)` on a string-keyed association list. -/
def assocLookup {β : Type} : List (List Char × β) → List Char → Option β
  | [], _ => none
  | (k, v) :: rest, key => if k = key then some v else assocLookup rest key

/-- The `hierarchy` dict literal of `_build_complete_hierarchy`
(src lines 481-502): 17 fields, every attribute at the `'N/A'` sentinel and
the level at `'UNKNOWN'`. -/
def initHierarchy : Hierarchy :=
  [("Campaign_Name".data, NA), ("Campaign_Status".data, NA),
   ("Campaign_Objective".data, NA), ("Campaign_Budget_Type".data, NA),
   ("Campaign_Budget".data, NA), ("Campaign_Bid_Strategy".data, NA),
   ("AdSet_Name".data, NA), ("AdSet_Status".data, NA),
   ("AdSet_Optimization_Goal".data, NA), ("AdSet_Billing_Event".data, NA),
   ("Age_Targeting".data, NA), ("Gender_Targeting".data, NA),
   ("Location_Targeting".data, NA),
   ("Ad_Name".data, NA), ("Ad_Status".data, NA), ("Ad_Preview_Link".data, NA),
   ("Hierarchy_Level".data, "UNKNOWN".data)]

/-- The 17 field names of the hierarchy record, in dict order. -/
def hierarchyFieldKeys : List (List Char) :=
  ["Campaign_Name".data, "Campaign_Status".data, "Campaign_Objective".data,
   "Campaign_Budget_Type".data, "Campaign_Budget".data, "Campaign_Bid_Strategy".data,
   "AdSet_Name".data, "AdSet_Status".data, "AdSet_Optimization_Goal".data,
   "AdSet_Billing_Event".data, "Age_Targeting".data, "Gender_Targeting".data,
   "Location_Targeting".data, "Ad_Name".data, "Ad_Status".data,
   "Ad_Preview_Link".data, "Hierarchy_Level".data]

/-- Python truthiness of an optional string (`if value:`): absent and empty
are falsy. -/
def truthy : Option (List Char) → Option (List Char)
  | some s => if s.isEmpty then none else some s
  | none => none

/-- Python `float(s)` on the decimal grammar the budget fields use: digits
with an optional fractional part (`"150"`, `"99.5"`, `"5."`, `".5"`).  A
string outside this grammar yields `none`, modelling the `ValueError` that the
blanket `except` of `_build_complete_hierarchy` then catches.  (Python also
accepts signs, exponents and surrounding whitespace, which Graph budget
strings never carry.) -/
def pyFloat (s : List Char) : Option ℚ :=
  let intPart := s.takeWhile Char.isDigit
  let rest := s.dropWhile Char.isDigit
  match rest with
  | [] => if intPart.isEmpty then none else some (natOfDigits intPart : ℚ)
  | '.' :: fracPart =>
    if fracPart.all Char.isDigit && !(intPart.isEmpty && fracPart.isEmpty) then
      some ((natOfDigits intPart : ℚ) + (natOfDigits fracPart : ℚ) / (10 ^ fracPart.length : ℚ))
    else none
  | _ => none

/-- The f-string `f"${x:.2f}"` on the nonnegative decimal values `pyFloat`
produces (rounding the third decimal half-up; CPython rounds the binary
double half-to-even, which agrees on the integer-cent budget strings the
API returns). -/
def formatDollars (dollars : ℚ) : List Char :=
  let n : Nat := (⌊dollars * 100 + 1 / 2⌋).toNat
  "$".data ++ natToStr (n / 100) ++ ".".data ++
    (if n % 100 < 10 then "0".data ++ natToStr (n % 100) else natToStr (n % 100))

/-- `_extract_targeting_info` (src lines 401-441).  `none` targeting covers
the falsy / non-dict argument branch. -/
def extractTargetingInfo : Option Targeting → List Char × List Char × List Char
  | none => ("Not Available".data, "Not Available".data, "Not Available".data)
  | some t =>
    let ageRange :=
      match t.ageMin with
      | none => "Not Set".data
      | some amin =>
        natToStr amin ++ "-".data ++
          (match t.ageMax with
           | none => NA
           | some amax => natToStr amax)
    let gender :=
      if t.genders = [] then "All".data
      else if 1 ∈ t.genders ∧ 2 ∈ t.genders then "All".data
      else if 1 ∈ t.genders then "Male".data
      else if 2 ∈ t.genders then "Female".data
      else "Not Set".data
    let location :=
      if t.countries ≠ [] then
        let loc := List.intercalate ", ".data (t.countries.take 3)
        if 3 < t.countries.length then
          loc ++ " +".data ++ natToStr (t.countries.length - 3) ++ " more".data
        else loc
      else if t.numCities ≠ 0 then natToStr t.numCities ++ " cities".data
      else if t.numRegions ≠ 0 then natToStr t.numRegions ++ " regions".data
      else "Not Set".data
    (ageRange, gender, location)

/-- The campaign-attribute block of `_build_complete_hierarchy`
(src lines 514-528 for the event's own campaign, 563-576 and 624-637 for a
parent campaign).  `statusKeyFallback` selects between the
`get('effective_status', get('status','N/A'))` form of the own-object case
and the `get('effective_status','N/A')` form of the parent case.  The
`float()` call inside the budget f-string can raise; `Except.error` carries
the dict as mutated so far, mirroring that `Campaign_Budget_Type` is already
set when the f-string for `Campaign_Budget` raises. -/
def setCampaignFields (h : Hierarchy) (cd : CampaignData) (nameDefault : List Char)
    (statusKeyFallback : Bool) : Except Hierarchy Hierarchy :=
  let h := dictSet h "Campaign_Name".data (cd.name.getD nameDefault)
  let h := dictSet h "Campaign_Status".data
    (cd.effectiveStatus.getD (if statusKeyFallback then cd.status.getD NA else NA))
  let h := dictSet h "Campaign_Objective".data (cd.objective.getD NA)
  let h := dictSet h "Campaign_Bid_Strategy".data (cd.bidStrategy.getD NA)
  match truthy cd.dailyBudget with
  | some db =>
    let h := dictSet h "Campaign_Budget_Type".data "Daily".data
    match pyFloat db with
    | some v => .ok (dictSet h "Campaign_Budget".data (formatDollars (v / 100)))
    | none => .error h
  | none =>
    match truthy cd.lifetimeBudget with
    | some lb =>
      let h := dictSet h "Campaign_Budget_Type".data "Lifetime".data
      match pyFloat lb with
      | some v => .ok (dictSet h "Campaign_Budget".data (formatDollars (v / 100)))
      | none => .error h
    | none => .ok h

/-- The adset-attribute block (src lines 542-552 for the event's own adset,
604-613 for a parent adset), including the derived targeting fields. -/
def setAdsetFields (h : Hierarchy) (asd : AdsetData) (nameDefault : List Char)
    (statusKeyFallback : Bool) : Hierarchy :=
  let h := dictSet h "AdSet_Name".data (asd.name.getD nameDefault)
  let h := dictSet h "AdSet_Status".data
    (asd.effectiveStatus.getD (if statusKeyFallback then asd.status.getD NA else NA))
  let h := dictSet h "AdSet_Optimization_Goal".data (asd.optimizationGoal.getD NA)
  let h := dictSet h "AdSet_Billing_Event".data (asd.billingEvent.getD NA)
  let ageGenderLoc := extractTargetingInfo asd.targeting
  let h := dictSet h "Age_Targeting".data ageGenderLoc.1
  let h := dictSet h "Gender_Targeting".data ageGenderLoc.2.1
  dictSet h "Location_Targeting".data ageGenderLoc.2.2

/-- The ad-attribute block (src lines 590-593). -/
def setAdFields (h : Hierarchy) (ad : AdData) (nameDefault : List Char) : Hierarchy :=
  let h := dictSet h "Ad_Name".data (ad.name.getD nameDefault)
  let h := dictSet h "Ad_Status".data (ad.effectiveStatus.getD (ad.status.getD NA))
  dictSet h "Ad_Preview_Link".data (ad.previewLink.getD NA)

/-- Python `try`/`except Exception` around the whole branch body: the handler
falls through to `return hierarchy`, so both outcomes carry the dict (and
state) as built so far. -/
def exVal {α : Type} : Except α α → α
  | .ok x => x
  | .error x => x

/-- The `if campaign_id:` parent-campaign step shared by the adset and ad
branches (src lines 554-576 and 615-637). -/
def resolveParentCampaign (o : FetchOracle) (st : ApiState) (h : Hierarchy)
    (asd : AdsetData) : Except (Hierarchy × ApiState) (Hierarchy × ApiState) :=
  match truthy asd.campaignId with
  | none => .ok (h, st)
  | some cid =>
    let res := getCampaignDetails o st cid
    match res.1 with
    | none => .ok (h, res.2)
    | some cd =>
      match setCampaignFields h cd NA false with
      | .ok h' => .ok (h', res.2)
      | .error h' => .error (h', res.2)

/-- CASE 1 of `_build_complete_hierarchy` (src lines 509-534):
`object_type == 'campaign_group'`, the event's object is a campaign. -/
def buildCampaignGroupBranch (o : FetchOracle) (st : ApiState)
    (objectId objectName : List Char) :
    Except (Hierarchy × ApiState) (Hierarchy × ApiState) :=
  let h := dictSet initHierarchy "Hierarchy_Level".data "CAMPAIGN".data
  let res := getCampaignDetails o st objectId
  match res.1 with
  | some cd =>
    match setCampaignFields h cd objectName true with
    | .ok h' => .ok (h', res.2)
    | .error h' => .error (h', res.2)
  | none => .ok (dictSet h "Campaign_Name".data objectName, res.2)

/-- CASE 2 of `_build_complete_hierarchy` (src lines 537-582):
`object_type == 'campaign'`, the event's object is an adset. -/
def buildAdsetEventBranch (o : FetchOracle) (st : ApiState)
    (objectId objectName : List Char) :
    Except (Hierarchy × ApiState) (Hierarchy × ApiState) :=
  let h := dictSet initHierarchy "Hierarchy_Level".data "ADSET".data
  let res := getAdsetDetails o st objectId
  match res.1 with
  | some asd =>
    let h := setAdsetFields h asd objectName true
    resolveParentCampaign o res.2 h asd
  | none => .ok (dictSet h "AdSet_Name".data objectName, res.2)

/-- CASE 3 of `_build_complete_hierarchy` (src lines 585-643):
`object_type == 'adgroup'`, the event's object is an ad. -/
def buildAdEventBranch (o : FetchOracle) (st : ApiState)
    (objectId objectName : List Char) :
    Except (Hierarchy × ApiState) (Hierarchy × ApiState) :=
  let h := dictSet initHierarchy "Hierarchy_Level".data "AD".data
  let res := getAdDetails o st objectId
  match res.1 with
  | some ad =>
    let h := setAdFields h ad objectName
    match truthy ad.adsetId with
    | none => .ok (h, res.2)
    | some asid =>
      let res2 := getAdsetDetails o res.2 asid
      match res2.1 with
      | none => .ok (h, res2.2)
      | some asd =>
        let h := setAdsetFields h asd NA false
        resolveParentCampaign o res2.2 h asd
  | none => .ok (dictSet h "Ad_Name".data objectName, res.2)

/-- The body of `_build_complete_hierarchy` inside the `try` (src lines
473-646): dispatch on the lowered object type.  `Except.error` means an
exception reached the blanket handler. -/
def buildCompleteHierarchyE (o : FetchOracle) (st : ApiState) (a : Activity) :
    Except (Hierarchy × ApiState) (Hierarchy × ApiState) :=
  let objectType := pyLower a.objectType
  if objectType = "campaign_group".data then
    buildCampaignGroupBranch o st a.objectId a.objectName
  else if objectType = "campaign".data then
    buildAdsetEventBranch o st a.objectId a.objectName
  else if objectType = "adgroup".data then
    buildAdEventBranch o st a.objectId a.objectName
  else
    .ok (dictSet initHierarchy "Hierarchy_Level".data ("OTHER:".data ++ objectType), st)

/-- `_build_complete_hierarchy` (src lines 464-654): the blanket
`except Exception` swallows any failure and the dict built so far is
returned either way. -/
def buildCompleteHierarchy (o : FetchOracle) (st : ApiState) (a : Activity) :
    Hierarchy × ApiState :=
  exVal (buildCompleteHierarchyE o st a)

/-- One persisted (or freshly fetched) sheet row, reduced to the fields that
the merger consumes; `otherFields` stands for the remaining columns of the
row. -/
structure SheetRow where
  accountId : List Char
  objectName : List Char
  timestamp : List Char
  action : List Char
  otherFields : List (List Char) := []
deriving DecidableEq

/-- `create_unique_id` (src lines 1054-1055): the composite identity key
`f"{Account_ID}_{Object_Name}_{Timestamp}_{Action}"`. -/
def createUniqueId (r : SheetRow) : List Char :=
  r.accountId ++ "_".data ++ r.objectName ++ "_".data ++ r.timestamp ++
    "_".data ++ r.action

/-- Lexicographic comparison of strings, as pandas compares string
timestamps. -/
def lexLe : List Char → List Char → Bool
  | [], _ => true
  | _ :: _, [] => false
  | a :: as, b :: bs => if a = b then lexLe as bs else decide (a < b)

/-- The `sort_values('Timestamp', ascending=False)` comparison (descending). -/
def timestampDesc (r s : SheetRow) : Bool := lexLe s.timestamp r.timestamp

/-- The append-mode deduplication of `upload_to_sheets` (src lines 1050-1087):
key both sides, drop the new rows whose key already exists in the persisted
set, and if any survive, append them to the persisted rows and sort by
timestamp descending; if none survive, keep the persisted set unchanged. -/
def mergeRows (existing newBatch : List SheetRow) : List SheetRow :=
  let existingIds := existing.map createUniqueId
  let newRows := newBatch.filter (fun r => decide (createUniqueId r ∉ existingIds))
  if newRows.isEmpty then existing
  else List.mergeSort (existing ++ newRows) timestampDesc

/-- One entry of `brand_mapping_dict` (src lines 854-859). -/
structure MappingData where
  originalName : List Char
  fbManager : List Char
  brandManager : List Char
  currentTeam : List Char
deriving DecidableEq

/-- The containment-scan loop of `_find_best_brand_match` (src lines
223-228): first entry, in dict insertion order, whose normalized key contains
or is contained in the normalized input with both of length at least 5.  An
entry whose key passes containment but fails the length check is skipped, the
scan continues. -/
def findBestBrandMatchAux : List (List Char × MappingData) → List Char → Option MappingData
  | [], _ => none
  | (k, d) :: rest, ni =>
    if (isSubstring ni k || isSubstring k ni) &&
        (decide (5 ≤ ni.length) && decide (5 ≤ k.length)) then some d
    else findBestBrandMatchAux rest ni

/-- `_find_best_brand_match` (src lines 213-230): falsy input yields no
match; else an exact lookup of the normalized input in the mapping dict takes
precedence; else the containment scan. -/
def findBestBrandMatch (mapping : List (List Char × MappingData))
    (brandName : List Char) : Option MappingData :=
  if brandName.isEmpty then none
  else
    let ni := normalizeBrandName brandName
    match assocLookup mapping ni with
    | some d => some d
    | none => findBestBrandMatchAux mapping ni

/-- The four columns `map_brand_data` attaches to a row (src lines 863-878). -/
structure MatchedFields where
  matchedAirtableBrand : List Char
  fbManager : List Char
  brandManager : List Char
  currentTeam : List Char
deriving DecidableEq

/-- `map_brand_data` (src lines 863-878): a match contributes its fields, no
match contributes the explicit `'Unknown'` identity. -/
def mapBrandData (mapping : List (List Char × MappingData))
    (brandName : List Char) : MatchedFields :=
  match findBestBrandMatch mapping brandName with
  | some m => ⟨m.originalName, m.fbManager, m.brandManager, m.currentTeam⟩
  | none => ⟨[], "Unknown".data, "Unknown".data, "Unknown".data⟩

/-- The containment condition of the matcher, as a proposition. -/
def qualifies (k ni : List Char) : Prop :=
  (isSubstring ni k = true ∨ isSubstring k ni = true) ∧ 5 ≤ ni.length ∧ 5 ≤ k.length

/-- A one-entry mapping for the C9 witness. -/
def mappingW : List (List Char × MappingData) :=
  [("zzzzz".data, ⟨"Zzzzz Ltd".data, "F".data, "B".data, "T".data⟩)]

/-- C5 counterexample: `_is_valid_meta_id` strips whitespace before checking,
so `" 12345678901234 "` is accepted although it does not consist only of
decimal digits — the claimed iff fails. -/
theorem c5_counterexample :
    isValidMetaId " 12345678901234 ".data = true ∧
      " 12345678901234 ".data.all Char.isDigit = false := by decide

/-- C5 (amended): `_is_valid_meta_id` accepts `s` iff `s` is non-empty and its
whitespace-stripped form consists only of decimal digits with length between
10 and 25 inclusive. -/
theorem c5_theorem (s : List Char) :
    isValidMetaId s = true ↔
      s ≠ [] ∧ 10 ≤ (pyStrip s).length ∧ (pyStrip s).length ≤ 25 ∧
        (pyStrip s).all Char.isDigit = true := by
  simp only [isValidMetaId]
  split_ifs with h1 h2 h3
  · simp only [List.isEmpty_iff] at h1
    simp [h1]
  · simp only [Bool.or_eq_true, decide_eq_true_eq] at h2
    constructor
    · intro h; cases h
    · rintro ⟨-, hle, hge, -⟩; omega
  · simp only [Bool.not_eq_true'] at h3
    constructor
    · intro h; cases h
    · rintro ⟨-, -, -, hall⟩; rw [hall] at h3; cases h3
  · simp only [List.isEmpty_iff] at h1
    simp only [Bool.or_eq_true, decide_eq_true_eq, not_or] at h2
    simp only [Bool.not_eq_true', Bool.not_eq_false] at h3
    refine ⟨fun _ => ⟨h1, ?_, ?_, h3⟩, fun _ => rfl⟩ <;> omega

/-- C5 examples from the spec: `"123"` rejected, a 14-digit string accepted,
`"12345abcde6789"` rejected. -/
theorem isValidMetaId_spec_examples :
    isValidMetaId "123".data = false ∧
      isValidMetaId "12345678901234".data = true ∧
      isValidMetaId "12345abcde6789".data = false := by decide

/-- C4 counterexample: brand-name normalization is not idempotent.
`normalize("linctd") = "ltd"` (the `'inc'` deletion manufactures a fresh
`'ltd'` occurrence), but `normalize("ltd") = ""`. -/
theorem c4_counterexample :
    normalizeBrandName (normalizeBrandName "linctd".data) ≠
      normalizeBrandName "linctd".data := by decide

/-- C4 (amended): the spec's example holds — `normalize("The Acme Pvt Ltd") =
"acme"` — and normalization is idempotent at that example; idempotence for
every string fails (see the counterexample). -/
theorem c4_theorem :
    normalizeBrandName "The Acme Pvt Ltd".data = "acme".data ∧
      normalizeBrandName (normalizeBrandName "The Acme Pvt Ltd".data) =
        normalizeBrandName "The Acme Pvt Ltd".data := by decide

/-- C3 counterexample: an event whose actor is the automated actor `"Meta"`
but whose kind contains the keyword `"update"` is included by the filter,
although the claim says any event with an automated actor is dropped. -/
theorem c3_counterexample :
    isHumanActivity { eventType := "update".data, actorName := "Meta".data } = true ∧
      pyLower "Meta".data ∈ AUTOMATED_ACTOR_NAMES ∧
      pyLower "update".data ∉ EXCLUDED_EVENT_TYPES := by decide

/-- C3 (amended): the filter includes an event iff its kind is not in the
excluded-kind set and either an included-action keyword occurs as a substring
of its (lowercased) kind or translated kind, or its actor name is non-empty
and not in the automated-actor set (case-insensitively). -/
theorem c3_theorem (a : Activity) :
    isHumanActivity a = true ↔
      pyLower a.eventType ∉ EXCLUDED_EVENT_TYPES ∧
        ((∃ action ∈ INCLUDED_ACTIONS,
            isSubstring action (pyLower a.eventType) = true ∨
              isSubstring action (pyLower a.translatedEventType) = true) ∨
          (a.actorName ≠ [] ∧ pyLower a.actorName ∉ AUTOMATED_ACTOR_NAMES)) := by
  simp only [isHumanActivity]
  split_ifs with h1 h2 h3
  · constructor
    · intro h; cases h
    · rintro ⟨hne, -⟩; exact absurd h1 hne
  · constructor
    · intro _
      refine ⟨h1, Or.inl ?_⟩
      simpa only [List.any_eq_true, Bool.or_eq_true] using h2
    · intro _; rfl
  · exact ⟨fun _ => ⟨h1, Or.inr h3⟩, fun _ => rfl⟩
  · constructor
    · intro h; cases h
    · rintro ⟨-, hex | hact⟩
      · refine absurd ?_ h2
        simpa only [List.any_eq_true, Bool.or_eq_true] using hex
      · exact absurd hact h3

/-- C6: for a prior timestamp strictly before the current time, the computed
fetch window is the floor of the elapsed hours plus the fixed 2-hour buffer. -/
theorem c6_theorem (nowSec lastSec : ℕ) (h : lastSec < nowSec) :
    adjustedFetchHours nowSec lastSec = (((nowSec - lastSec) / 3600 : ℕ) : ℤ) + 2 := by
  have hq : hoursSinceLast nowSec lastSec = ((nowSec - lastSec : ℕ) : ℚ) / 3600 := by
    unfold hoursSinceLast
    rw [Nat.cast_sub h.le]
  have hnn : 0 ≤ hoursSinceLast nowSec lastSec := by
    rw [hq]; positivity
  unfold adjustedFetchHours pyInt
  rw [if_pos hnn, hq]
  have h3600 : ((3600 : ℕ) : ℚ) = (3600 : ℚ) := by norm_cast
  rw [← Int.natCast_floor_eq_floor (by positivity), ← h3600, Nat.floor_div_eq_div]

/-- C6 witness: with the prior timestamp 5 hours 10 minutes (18600 seconds)
before now, the computed window is 7 hours. -/
theorem c6_witness : (0 : ℕ) < 18600 ∧ adjustedFetchHours 18600 0 = 7 := by
  refine ⟨by norm_num, ?_⟩
  have h := c6_theorem 18600 0 (by norm_num)
  norm_num at h
  exact h

/-- C1 counterexample: fetching the same valid campaign id twice within one
run issues two API requests — there is no memoizing cache in the source. -/
theorem c1_counterexample :
    ((getCampaignDetails noneOracle {} "12345678901234".data).2).campaignCalls = 1 ∧
      ((getCampaignDetails noneOracle
          (getCampaignDetails noneOracle {} "12345678901234".data).2
          "12345678901234".data).2).campaignCalls = 2 := by decide

/-- C1 (amended): each detail fetch with a valid id issues exactly one API
request, unconditionally — independent of the oracle's answer and of any
earlier fetches of the same id (no memoization); an invalid id issues none.
In particular a repeated fetch of the same id issues a second request. -/
theorem c1_theorem (o : FetchOracle) (st : ApiState) (objectId : List Char) :
    (getCampaignDetails o st objectId).2.campaignCalls =
        st.campaignCalls + (if isValidMetaId objectId then 1 else 0) ∧
      (getAdsetDetails o st objectId).2.adsetCalls =
        st.adsetCalls + (if isValidMetaId objectId then 1 else 0) ∧
      (getAdDetails o st objectId).2.adCalls =
        st.adCalls + (if isValidMetaId objectId then 1 else 0) ∧
      (getCampaignDetails o (getCampaignDetails o st objectId).2 objectId).2.campaignCalls =
        st.campaignCalls + (if isValidMetaId objectId then 2 else 0) := by
  cases hv : isValidMetaId objectId <;>
    simp [getCampaignDetails, getAdsetDetails, getAdDetails, hv]

/-- C2 counterexample: two distinct valid ids issue 2 API requests, not
`ceil(2/50) = 1` multiplexed call. -/
theorem c2_counterexample :
    (fetchCampaignDetailsList noneOracle {}
        ["12345678901234".data, "12345678901235".data]).campaignCalls = 2 ∧
      ceilDiv 2 50 = 1 ∧ (2 : Nat) ≠ 1 := by decide

/-- C2 (amended): enriching N valid object ids issues exactly N API requests,
one per id (0 ids issue 0 requests); the source has no 50-item multiplexing. -/
theorem c2_theorem (o : FetchOracle) (st : ApiState) (ids : List (List Char))
    (hvalid : ∀ i ∈ ids, isValidMetaId i = true) :
    (fetchCampaignDetailsList o st ids).campaignCalls =
      st.campaignCalls + ids.length := by
  induction ids generalizing st with
  | nil => simp [fetchCampaignDetailsList]
  | cons i rest ih =>
    have hi : isValidMetaId i = true := hvalid i (List.mem_cons_self ..)
    have hrest : ∀ j ∈ rest, isValidMetaId j = true :=
      fun j hj => hvalid j (List.mem_cons_of_mem _ hj)
    have step : fetchCampaignDetailsList o st (i :: rest) =
        fetchCampaignDetailsList o ((getCampaignDetails o st i).2) rest := rfl
    rw [step, ih _ hrest]
    have hcall : ((getCampaignDetails o st i).2).campaignCalls = st.campaignCalls + 1 := by
      simp [getCampaignDetails, hi]
    rw [hcall, List.length_cons]
    omega

/-- C2 witness: the amended theorem applied to two concrete valid ids. -/
theorem c2_witness :
    (fetchCampaignDetailsList noneOracle {}
        ["12345678901234".data, "12345678901235".data]).campaignCalls = 0 + 2 := by
  exact c2_theorem noneOracle {} _ (by decide)

theorem getCampaignDetails_noneOracle_fst (st : ApiState) (objectId : List Char) :
    (getCampaignDetails noneOracle st objectId).1 = none := by
  unfold getCampaignDetails
  split <;> rfl

theorem getAdsetDetails_noneOracle_fst (st : ApiState) (objectId : List Char) :
    (getAdsetDetails noneOracle st objectId).1 = none := by
  unfold getAdsetDetails
  split <;> rfl

theorem getAdDetails_noneOracle_fst (st : ApiState) (objectId : List Char) :
    (getAdDetails noneOracle st objectId).1 = none := by
  unfold getAdDetails
  split <;> rfl

/-- C8 counterexample: for a `campaign_group` event named `"Summer Sale"`
whose every detail fetch returns nothing, the resolved row's `Campaign_Name`
holds the event's own `object_name`, not the `'N/A'` sentinel the claim
requires for every ancestor attribute field (src line 532). -/
theorem c8_counterexample :
    assocLookup (buildCompleteHierarchy noneOracle {}
        { objectId := "12345678901234".data, objectName := "Summer Sale".data,
          objectType := "campaign_group".data }).1 "Campaign_Name".data =
      some "Summer Sale".data ∧ "Summer Sale".data ≠ NA := by decide

/-- C8 (amended): for every event of a recognized tier whose detail fetches
all return nothing, hierarchy resolution completes without an exception and
yields the all-default row, except that the own-tier name field falls back to
the event's `object_name` and `Hierarchy_Level` holds the tier label. -/
theorem c8_theorem (objectId n : List Char) (st : ApiState) :
    (buildCompleteHierarchy noneOracle st
        { objectId := objectId, objectName := n,
          objectType := "campaign_group".data }).1 =
      [("Campaign_Name".data, n), ("Campaign_Status".data, NA),
       ("Campaign_Objective".data, NA), ("Campaign_Budget_Type".data, NA),
       ("Campaign_Budget".data, NA), ("Campaign_Bid_Strategy".data, NA),
       ("AdSet_Name".data, NA), ("AdSet_Status".data, NA),
       ("AdSet_Optimization_Goal".data, NA), ("AdSet_Billing_Event".data, NA),
       ("Age_Targeting".data, NA), ("Gender_Targeting".data, NA),
       ("Location_Targeting".data, NA), ("Ad_Name".data, NA),
       ("Ad_Status".data, NA), ("Ad_Preview_Link".data, NA),
       ("Hierarchy_Level".data, "CAMPAIGN".data)] ∧
    (buildCompleteHierarchy noneOracle st
        { objectId := objectId, objectName := n,
          objectType := "campaign".data }).1 =
      [("Campaign_Name".data, NA), ("Campaign_Status".data, NA),
       ("Campaign_Objective".data, NA), ("Campaign_Budget_Type".data, NA),
       ("Campaign_Budget".data, NA), ("Campaign_Bid_Strategy".data, NA),
       ("AdSet_Name".data, n), ("AdSet_Status".data, NA),
       ("AdSet_Optimization_Goal".data, NA), ("AdSet_Billing_Event".data, NA),
       ("Age_Targeting".data, NA), ("Gender_Targeting".data, NA),
       ("Location_Targeting".data, NA), ("Ad_Name".data, NA),
       ("Ad_Status".data, NA), ("Ad_Preview_Link".data, NA),
       ("Hierarchy_Level".data, "ADSET".data)] ∧
    (buildCompleteHierarchy noneOracle st
        { objectId := objectId, objectName := n,
          objectType := "adgroup".data }).1 =
      [("Campaign_Name".data, NA), ("Campaign_Status".data, NA),
       ("Campaign_Objective".data, NA), ("Campaign_Budget_Type".data, NA),
       ("Campaign_Budget".data, NA), ("Campaign_Bid_Strategy".data, NA),
       ("AdSet_Name".data, NA), ("AdSet_Status".data, NA),
       ("AdSet_Optimization_Goal".data, NA), ("AdSet_Billing_Event".data, NA),
       ("Age_Targeting".data, NA), ("Gender_Targeting".data, NA),
       ("Location_Targeting".data, NA), ("Ad_Name".data, n),
       ("Ad_Status".data, NA), ("Ad_Preview_Link".data, NA),
       ("Hierarchy_Level".data, "AD".data)] := by
  refine ⟨?_, ?_, ?_⟩
  · show (exVal (buildCampaignGroupBranch noneOracle st objectId n)).1 = _
    simp only [buildCampaignGroupBranch, getCampaignDetails_noneOracle_fst, exVal]
    rfl
  · show (exVal (buildAdsetEventBranch noneOracle st objectId n)).1 = _
    simp only [buildAdsetEventBranch, getAdsetDetails_noneOracle_fst, exVal]
    rfl
  · show (exVal (buildAdEventBranch noneOracle st objectId n)).1 = _
    simp only [buildAdEventBranch, getAdDetails_noneOracle_fst, exVal]
    rfl

theorem keysOf_dictSet {d : Hierarchy} {k : List Char} (v : List Char)
    (hk : k ∈ d.map Prod.fst) :
    (dictSet d k v).map Prod.fst = d.map Prod.fst := by
  induction d with
  | nil => simp at hk
  | cons p rest ih =>
    obtain ⟨k', v'⟩ := p
    by_cases h : k' = k
    · simp [dictSet, h]
    · have hk' : k ∈ rest.map Prod.fst := by
        simp only [List.map_cons, List.mem_cons] at hk
        exact hk.resolve_left fun h1 => h h1.symm
      simp [dictSet, h, ih hk']

theorem keysOf_dictSet_full {d : Hierarchy} (k v : List Char)
    (hd : d.map Prod.fst = hierarchyFieldKeys) (hmem : k ∈ hierarchyFieldKeys) :
    (dictSet d k v).map Prod.fst = hierarchyFieldKeys := by
  rw [keysOf_dictSet v (hd ▸ hmem), hd]

theorem setCampaignFields_keys (h : Hierarchy) (cd : CampaignData)
    (nameDefault : List Char) (b : Bool)
    (hd : h.map Prod.fst = hierarchyFieldKeys) :
    (exVal (setCampaignFields h cd nameDefault b)).map Prod.fst = hierarchyFieldKeys := by
  have k1 := keysOf_dictSet_full "Campaign_Name".data (cd.name.getD nameDefault)
    hd (by decide)
  have k2 := keysOf_dictSet_full "Campaign_Status".data
    (cd.effectiveStatus.getD (if b then cd.status.getD NA else NA)) k1 (by decide)
  have k3 := keysOf_dictSet_full "Campaign_Objective".data (cd.objective.getD NA)
    k2 (by decide)
  have k4 := keysOf_dictSet_full "Campaign_Bid_Strategy".data (cd.bidStrategy.getD NA)
    k3 (by decide)
  cases htd : truthy cd.dailyBudget with
  | none =>
    cases htl : truthy cd.lifetimeBudget with
    | none =>
      simp only [setCampaignFields, htd, htl, exVal]
      exact k4
    | some lb =>
      have k5 := keysOf_dictSet_full "Campaign_Budget_Type".data "Lifetime".data
        k4 (by decide)
      cases hpf : pyFloat lb with
      | none =>
        simp only [setCampaignFields, htd, htl, hpf, exVal]
        exact k5
      | some v =>
        have k6 := keysOf_dictSet_full "Campaign_Budget".data (formatDollars (v / 100))
          k5 (by decide)
        simp only [setCampaignFields, htd, htl, hpf, exVal]
        exact k6
  | some db =>
    have k5 := keysOf_dictSet_full "Campaign_Budget_Type".data "Daily".data
      k4 (by decide)
    cases hpf : pyFloat db with
    | none =>
      simp only [setCampaignFields, htd, hpf, exVal]
      exact k5
    | some v =>
      have k6 := keysOf_dictSet_full "Campaign_Budget".data (formatDollars (v / 100))
        k5 (by decide)
      simp only [setCampaignFields, htd, hpf, exVal]
      exact k6

theorem setAdsetFields_keys (h : Hierarchy) (asd : AdsetData)
    (nameDefault : List Char) (b : Bool)
    (hd : h.map Prod.fst = hierarchyFieldKeys) :
    (setAdsetFields h asd nameDefault b).map Prod.fst = hierarchyFieldKeys := by
  have k1 := keysOf_dictSet_full "AdSet_Name".data (asd.name.getD nameDefault)
    hd (by decide)
  have k2 := keysOf_dictSet_full "AdSet_Status".data
    (asd.effectiveStatus.getD (if b then asd.status.getD NA else NA)) k1 (by decide)
  have k3 := keysOf_dictSet_full "AdSet_Optimization_Goal".data
    (asd.optimizationGoal.getD NA) k2 (by decide)
  have k4 := keysOf_dictSet_full "AdSet_Billing_Event".data
    (asd.billingEvent.getD NA) k3 (by decide)
  have k5 := keysOf_dictSet_full "Age_Targeting".data
    (extractTargetingInfo asd.targeting).1 k4 (by decide)
  have k6 := keysOf_dictSet_full "Gender_Targeting".data
    (extractTargetingInfo asd.targeting).2.1 k5 (by decide)
  have k7 := keysOf_dictSet_full "Location_Targeting".data
    (extractTargetingInfo asd.targeting).2.2 k6 (by decide)
  simp only [setAdsetFields]
  exact k7

theorem setAdFields_keys (h : Hierarchy) (ad : AdData) (nameDefault : List Char)
    (hd : h.map Prod.fst = hierarchyFieldKeys) :
    (setAdFields h ad nameDefault).map Prod.fst = hierarchyFieldKeys := by
  have k1 := keysOf_dictSet_full "Ad_Name".data (ad.name.getD nameDefault)
    hd (by decide)
  have k2 := keysOf_dictSet_full "Ad_Status".data
    (ad.effectiveStatus.getD (ad.status.getD NA)) k1 (by decide)
  have k3 := keysOf_dictSet_full "Ad_Preview_Link".data (ad.previewLink.getD NA)
    k2 (by decide)
  simp only [setAdFields]
  exact k3

theorem resolveParentCampaign_keys (o : FetchOracle) (st : ApiState)
    (h : Hierarchy) (asd : AdsetData)
    (hd : h.map Prod.fst = hierarchyFieldKeys) :
    (exVal (resolveParentCampaign o st h asd)).1.map Prod.fst = hierarchyFieldKeys := by
  cases hci : truthy asd.campaignId with
  | none =>
    simp only [resolveParentCampaign, hci, exVal]
    exact hd
  | some cid =>
    cases hcd : (getCampaignDetails o st cid).1 with
    | none =>
      simp only [resolveParentCampaign, hci, hcd, exVal]
      exact hd
    | some cd =>
      have hk := setCampaignFields_keys h cd NA false hd
      cases hsc : setCampaignFields h cd NA false with
      | error h' =>
        rw [hsc] at hk
        simp only [exVal] at hk
        simp only [resolveParentCampaign, hci, hcd, hsc, exVal]
        exact hk
      | ok h' =>
        rw [hsc] at hk
        simp only [exVal] at hk
        simp only [resolveParentCampaign, hci, hcd, hsc, exVal]
        exact hk

theorem buildCampaignGroupBranch_keys (o : FetchOracle) (st : ApiState)
    (objectId objectName : List Char) :
    (exVal (buildCampaignGroupBranch o st objectId objectName)).1.map Prod.fst =
      hierarchyFieldKeys := by
  have hd0 : (dictSet initHierarchy "Hierarchy_Level".data "CAMPAIGN".data).map
      Prod.fst = hierarchyFieldKeys := by decide
  cases hcd : (getCampaignDetails o st objectId).1 with
  | none =>
    simp only [buildCampaignGroupBranch, hcd, exVal]
    exact keysOf_dictSet_full _ _ hd0 (by decide)
  | some cd =>
    have hk := setCampaignFields_keys
      (dictSet initHierarchy "Hierarchy_Level".data "CAMPAIGN".data) cd objectName true hd0
    cases hsc : setCampaignFields
        (dictSet initHierarchy "Hierarchy_Level".data "CAMPAIGN".data) cd objectName true with
    | error h' =>
      rw [hsc] at hk
      simp only [exVal] at hk
      simp only [buildCampaignGroupBranch, hcd, hsc, exVal]
      exact hk
    | ok h' =>
      rw [hsc] at hk
      simp only [exVal] at hk
      simp only [buildCampaignGroupBranch, hcd, hsc, exVal]
      exact hk

theorem buildAdsetEventBranch_keys (o : FetchOracle) (st : ApiState)
    (objectId objectName : List Char) :
    (exVal (buildAdsetEventBranch o st objectId objectName)).1.map Prod.fst =
      hierarchyFieldKeys := by
  have hd0 : (dictSet initHierarchy "Hierarchy_Level".data "ADSET".data).map
      Prod.fst = hierarchyFieldKeys := by decide
  cases hasd : (getAdsetDetails o st objectId).1 with
  | none =>
    simp only [buildAdsetEventBranch, hasd, exVal]
    exact keysOf_dictSet_full _ _ hd0 (by decide)
  | some asd =>
    simp only [buildAdsetEventBranch, hasd]
    exact resolveParentCampaign_keys _ _ _ _ (setAdsetFields_keys _ _ _ _ hd0)

theorem buildAdEventBranch_keys (o : FetchOracle) (st : ApiState)
    (objectId objectName : List Char) :
    (exVal (buildAdEventBranch o st objectId objectName)).1.map Prod.fst =
      hierarchyFieldKeys := by
  have hd0 : (dictSet initHierarchy "Hierarchy_Level".data "AD".data).map
      Prod.fst = hierarchyFieldKeys := by decide
  cases had : (getAdDetails o st objectId).1 with
  | none =>
    simp only [buildAdEventBranch, had, exVal]
    exact keysOf_dictSet_full _ _ hd0 (by decide)
  | some ad =>
    have hk1 := setAdFields_keys
      (dictSet initHierarchy "Hierarchy_Level".data "AD".data) ad objectName hd0
    cases hai : truthy ad.adsetId with
    | none =>
      simp only [buildAdEventBranch, had, hai, exVal]
      exact hk1
    | some asid =>
      cases hasd : (getAdsetDetails o
          (getAdDetails o st objectId).2 asid).1 with
      | none =>
        simp only [buildAdEventBranch, had, hai, hasd, exVal]
        exact hk1
      | some asd =>
        simp only [buildAdEventBranch, had, hai, hasd]
        exact resolveParentCampaign_keys _ _ _ _ (setAdsetFields_keys _ _ _ _ hk1)

/-- C10 counterexample to the claimed field count: the returned record has
exactly 17 distinct hierarchy fields, not 18. -/
theorem c10_counterexample :
    ((buildCompleteHierarchy noneOracle {}
        { objectId := "10000000000111".data, objectName := "x".data,
          objectType := "campaign".data }).1).length = 17 ∧
      (((buildCompleteHierarchy noneOracle {}
          { objectId := "10000000000111".data, objectName := "x".data,
            objectType := "campaign".data }).1).map Prod.fst).Nodup ∧
      (17 : Nat) ≠ 18 := by decide

/-- C10 (amended): `_build_complete_hierarchy` is total — for every activity
record and every outcome of every detail fetch (including budget strings on
which `float()` raises, which the blanket handler catches), it returns a
record whose keys are exactly the 17 hierarchy fields, each carrying a string
value; no exception propagates. -/
theorem c10_theorem (o : FetchOracle) (st : ApiState) (a : Activity) :
    (buildCompleteHierarchy o st a).1.map Prod.fst = hierarchyFieldKeys ∧
      hierarchyFieldKeys.length = 17 := by
  refine ⟨?_, by decide⟩
  simp only [buildCompleteHierarchy, buildCompleteHierarchyE]
  split_ifs with h1 h2 h3
  · exact buildCampaignGroupBranch_keys o st a.objectId a.objectName
  · exact buildAdsetEventBranch_keys o st a.objectId a.objectName
  · exact buildAdEventBranch_keys o st a.objectId a.objectName
  · simp only [exVal]
    exact keysOf_dictSet_full _ _ (by decide) (by decide)

/-- C7: the merger keeps every persisted row unchanged, drops exactly the new
rows whose composite key already occurs in the persisted set (the output is a
permutation of the persisted rows plus the surviving new rows), and is
idempotent — merging the same batch into the merged result changes nothing,
so it adds zero rows and the size is unchanged. -/
theorem c7_theorem (P B : List SheetRow) :
    List.Perm (mergeRows P B)
        (P ++ B.filter (fun r => decide (createUniqueId r ∉ P.map createUniqueId))) ∧
      mergeRows (mergeRows P B) B = mergeRows P B ∧
      (mergeRows (mergeRows P B) B).length = (mergeRows P B).length := by
  have hperm : List.Perm (mergeRows P B)
      (P ++ B.filter (fun r => decide (createUniqueId r ∉ P.map createUniqueId))) := by
    simp only [mergeRows]
    split_ifs with hempty
    · rw [List.isEmpty_iff] at hempty
      rw [hempty, List.append_nil]
    · exact List.mergeSort_perm _ _
  have hfil : B.filter
      (fun r => decide (createUniqueId r ∉ (mergeRows P B).map createUniqueId)) = [] := by
    rw [List.filter_eq_nil_iff]
    intro r hr
    simp only [decide_eq_true_eq, not_not]
    have hsrc : createUniqueId r ∈
        (P ++ B.filter
          (fun s => decide (createUniqueId s ∉ P.map createUniqueId))).map createUniqueId := by
      rw [List.map_append]
      by_cases hc : createUniqueId r ∈ P.map createUniqueId
      · exact List.mem_append_left _ hc
      · refine List.mem_append_right _ (List.mem_map_of_mem _ ?_)
        rw [List.mem_filter]
        exact ⟨hr, by simpa using hc⟩
    exact ((hperm.map createUniqueId).mem_iff).mpr hsrc
  have hstep : mergeRows (mergeRows P B) B =
      (if (B.filter (fun r =>
            decide (createUniqueId r ∉ (mergeRows P B).map createUniqueId))).isEmpty
       then mergeRows P B
       else List.mergeSort
         (mergeRows P B ++ B.filter (fun r =>
            decide (createUniqueId r ∉ (mergeRows P B).map createUniqueId)))
         timestampDesc) := rfl
  have heq : mergeRows (mergeRows P B) B = mergeRows P B := by
    rw [hstep, hfil]
    simp
  exact ⟨hperm, heq, by rw [heq]⟩

theorem assocLookup_some_key {β : Type} {m : List (List Char × β)} {k : List Char}
    {d : β} (h : assocLookup m k = some d) : ∃ p ∈ m, p.1 = k ∧ p.2 = d := by
  induction m with
  | nil => cases h
  | cons q rest ih =>
    obtain ⟨k', v'⟩ := q
    by_cases hk : k' = k
    · subst hk
      have h' : v' = d := by simpa [assocLookup] using h
      exact ⟨(k', v'), List.mem_cons_self .., rfl, h'⟩
    · simp only [assocLookup, if_neg hk] at h
      obtain ⟨p, hp, h1, h2⟩ := ih h
      exact ⟨p, List.mem_cons_of_mem _ hp, h1, h2⟩

theorem findAux_of_exists (mapping : List (List Char × MappingData)) (ni : List Char)
    (hex : ∃ p ∈ mapping, qualifies p.1 ni) :
    ∃ p ∈ mapping, qualifies p.1 ni ∧ findBestBrandMatchAux mapping ni = some p.2 := by
  induction mapping with
  | nil =>
    obtain ⟨p, hp, -⟩ := hex
    cases hp
  | cons q rest ih =>
    obtain ⟨k, d⟩ := q
    by_cases hq : ((isSubstring ni k || isSubstring k ni) &&
        (decide (5 ≤ ni.length) && decide (5 ≤ k.length))) = true
    · refine ⟨(k, d), List.mem_cons_self .., ?_, ?_⟩
      · simp only [Bool.and_eq_true, Bool.or_eq_true, decide_eq_true_eq] at hq
        exact ⟨hq.1, hq.2.1, hq.2.2⟩
      · simp [findBestBrandMatchAux, hq]
    · have hnq : ¬ qualifies k ni := by
        intro hqual
        apply hq
        simp only [Bool.and_eq_true, Bool.or_eq_true, decide_eq_true_eq]
        exact ⟨hqual.1, hqual.2.1, hqual.2.2⟩
      obtain ⟨p, hp, hpq⟩ := hex
      rcases List.mem_cons.mp hp with h1 | h1
      · rw [h1] at hpq
        exact absurd hpq hnq
      · obtain ⟨p', hp', hq', hfind⟩ := ih ⟨p, h1, hpq⟩
        refine ⟨p', List.mem_cons_of_mem _ hp', hq', ?_⟩
        simpa [findBestBrandMatchAux, hq] using hfind

theorem findAux_of_none (mapping : List (List Char × MappingData)) (ni : List Char)
    (hall : ∀ p ∈ mapping, ¬ qualifies p.1 ni) :
    findBestBrandMatchAux mapping ni = none := by
  induction mapping with
  | nil => rfl
  | cons q rest ih =>
    obtain ⟨k, d⟩ := q
    have hnq : ¬(((isSubstring ni k || isSubstring k ni) &&
        (decide (5 ≤ ni.length) && decide (5 ≤ k.length))) = true) := by
      intro hq
      simp only [Bool.and_eq_true, Bool.or_eq_true, decide_eq_true_eq] at hq
      exact hall (k, d) (List.mem_cons_self ..) ⟨hq.1, hq.2.1, hq.2.2⟩
    simp only [findBestBrandMatchAux]
    rw [if_neg hnq]
    exact ih fun p hp => hall p (List.mem_cons_of_mem _ hp)

/-- C9: exact normalized match takes precedence; failing that, a containment
match (both strings of length at least 5) yields some qualifying entry;
failing both, the row receives the explicit `'Unknown'` identity.  The
hypothesis that mapping keys are non-empty holds by construction: the dict is
built only from names with non-empty normalization (src line 853). -/
theorem c9_theorem (mapping : List (List Char × MappingData)) (brandName : List Char)
    (hkeys : ∀ p ∈ mapping, p.1 ≠ ([] : List Char)) :
    (∀ d, assocLookup mapping (normalizeBrandName brandName) = some d →
        findBestBrandMatch mapping brandName = some d) ∧
      (assocLookup mapping (normalizeBrandName brandName) = none →
        (∃ p ∈ mapping, qualifies p.1 (normalizeBrandName brandName)) →
          ∃ p ∈ mapping, qualifies p.1 (normalizeBrandName brandName) ∧
            findBestBrandMatch mapping brandName = some p.2) ∧
      (assocLookup mapping (normalizeBrandName brandName) = none →
        (∀ p ∈ mapping, ¬ qualifies p.1 (normalizeBrandName brandName)) →
          mapBrandData mapping brandName =
            ⟨[], "Unknown".data, "Unknown".data, "Unknown".data⟩) := by
  by_cases hb : brandName.isEmpty
  · have hbe : brandName = [] := List.isEmpty_iff.mp hb
    subst hbe
    refine ⟨?_, ?_, ?_⟩
    · intro d hd
      obtain ⟨p, hp, h1, -⟩ := assocLookup_some_key hd
      exact absurd h1 (hkeys p hp)
    · intro _ hex
      obtain ⟨p, hp, hq⟩ := hex
      have h5 := hq.2.1
      simp [normalizeBrandName] at h5
    · intro _ _
      rfl
  · refine ⟨?_, ?_, ?_⟩
    · intro d hd
      simp [findBestBrandMatch, hb, hd]
    · intro hnone hex
      obtain ⟨p, hp, hq, hfind⟩ := findAux_of_exists mapping (normalizeBrandName brandName) hex
      refine ⟨p, hp, hq, ?_⟩
      simp [findBestBrandMatch, hb, hnone, hfind]
    · intro hnone hall
      have hfind := findAux_of_none mapping (normalizeBrandName brandName) hall
      simp [mapBrandData, findBestBrandMatch, hb, hnone, hfind]

/-- C9 witness: the theorem applied to a concrete mapping and brand with an
exact normalized match. -/
theorem c9_witness :
    findBestBrandMatch mappingW "zzzzz".data =
      some ⟨"Zzzzz Ltd".data, "F".data, "B".data, "T".data⟩ := by
  exact (c9_theorem mappingW "zzzzz".data (by decide)).1 _ (by decide)
